import Mathlib

/-!
Shallow embedding of the tournament-bracket core of the Bolt-bracket
repository (`src/utils/bracketGenerator.ts`, types from `src/types`).

Players, matches and brackets are modelled as Lean structures; JavaScript
`undefined`-able fields become `Option`; truthiness tests on the optional
`isBye` flag become `Option.elim false`.  Array reads that may be out of
bounds in JavaScript are modelled with `List.get?` / `List.getD`.
-/

namespace BoltBracket

open List

/-- Player record from `src/types` (`id`, `name`, optional seed/pool which
the bracket core never reads, plus the `isBye` flag that the generator
attaches to synthetic bye entries; a real player object simply lacks the
property, i.e. `isBye = false` here). -/
structure Player where
  id : String
  name : String
  isBye : Bool := false
deriving Repr, DecidableEq

/-- Match record from `src/types`: id string, round number, two optional
player slots, optional winner and optional annotation text. -/
structure Match where
  id : String
  round : Nat
  player1 : Option Player := none
  player2 : Option Player := none
  winner : Option Player := none
  annotations : Option String := none
deriving Repr, DecidableEq

instance : Inhabited Match := ⟨{ id := "", round := 0 }⟩

/-- Bracket as the generator module actually constructs it: just the array
of rounds (the extra fields declared on the `Bracket` interface in
`src/types` are never populated by `generateBracket` or
`updateBracketWithWinner`, which both return bare `{ rounds }` objects). -/
structure Bracket where
  rounds : List (List Match)
deriving Repr, DecidableEq

/-- Ceiling base-2 logarithm, written with structural recursion on a fuel
argument so that the kernel can evaluate it on concrete inputs; it agrees
with Mathlib's `Nat.clog 2` (proved below). -/
def clog2Aux (fuel n : Nat) : Nat :=
  match fuel with
  | 0 => 0
  | fuel + 1 => if 1 < n then clog2Aux fuel ((n + 1) / 2) + 1 else 0

/-- Ceiling base-2 logarithm: `Math.ceil(Math.log2 n)` for `n ≥ 1`. -/
def clog2 (n : Nat) : Nat := clog2Aux n n

/-- Floor base-2 logarithm, structural on a fuel argument; agrees with
`Nat.log2` (proved below).  `Math.log2` of a power of two is exact. -/
def log2Aux (fuel n : Nat) : Nat :=
  match fuel with
  | 0 => 0
  | fuel + 1 => if 2 ≤ n then log2Aux fuel (n / 2) + 1 else 0

/-- Floor base-2 logarithm. -/
def log2 (n : Nat) : Nat := log2Aux n n

/-- Lines 3-6: `nextPowerOfTwo = 2 ^ ceil(log2 n)`, byes = that minus `n`.
For `n = 0`, JavaScript evaluates `Math.pow(2, -Infinity) = 0`, hence
`0 - 0 = 0` byes; the `n = 0` case is written out explicitly. -/
def calculateByes (playerCount : Nat) : Nat :=
  if playerCount = 0 then 0 else 2 ^ clog2 playerCount - playerCount

/-- Lines 42-47: the synthetic bye player with 1-based id `bye-(i+1)`. -/
def createBye (index : Nat) : Player :=
  { id := "bye-" ++ Nat.repr (index + 1), name := "BYE", isBye := true }

/-- The boundary-placement loop shared by the two halves of
`distributeByes` (lines 54-61 and 69-76): walk a half with running index
`i`, and before the first (`i = 0`) and last (`i = n - 1`) entries insert
the next bye from the shared pool while `byeIndex < cap`.  The bye pool
entry at position `byeIndex` is `createBye byeIndex` (in the source,
`byePlayers[byeIndex]`; every read is in bounds because `cap` never
exceeds the total bye count).  Returns the processed entries together
with the final `byeIndex`. -/
def placeBoundaryByes (half : List Player) (n i byeIndex cap : Nat) :
    List Player × Nat :=
  match half with
  | [] => ([], byeIndex)
  | p :: rest =>
    if (i = 0 ∨ i = n - 1) ∧ byeIndex < cap then
      let r := placeBoundaryByes rest n (i + 1) (byeIndex + 1) cap
      (createBye byeIndex :: p :: r.1, r.2)
    else
      let r := placeBoundaryByes rest n (i + 1) byeIndex cap
      (p :: r.1, r.2)

/-- The trailing `while (byeIndex < cap) push(byePlayers[byeIndex++])`
loops of `distributeByes` (lines 64-66 and 79-81). -/
def fillByes (byeIndex cap : Nat) : List Player :=
  (List.range (cap - byeIndex)).map (fun j => createBye (byeIndex + j))

/-- One half of `distributeByes`: the boundary loop over the half followed
by the trailing while-loop pushing the remaining byes until `byeIndex`
reaches `cap` (lines 54-66 for the upper half with `cap = upperByes`,
lines 69-81 for the lower half with `cap = byesCount`).  Returns the
emitted entries together with the final `byeIndex`. -/
def processHalf (half : List Player) (startIdx cap : Nat) : List Player × Nat :=
  let r := placeBoundaryByes half half.length 0 startIdx cap
  (r.1 ++ fillByes r.2 cap, max r.2 cap)

/-- Lines 8-85: split the players into an upper and a lower half, split the
byes between the halves, and place byes at each half's boundary positions.
`lowerHalfSize` and `lowerByes` are computed by the source but never read
(both bye-placing loops of the lower half are bounded by the total
`byesCount`), so they are not reproduced here. -/
def distributeByes (players : List Player) (byesCount : Nat) : List Player :=
  let totalPlayers := players.length
  let upperHalfSize :=
    if totalPlayers % 2 ≠ 0 then (totalPlayers + 1) / 2 else totalPlayers / 2
  let upperByes :=
    if byesCount % 2 = 0 then byesCount / 2
    else if totalPlayers % 2 ≠ 0 then byesCount / 2
    else (byesCount + 1) / 2
  let u := processHalf (players.take upperHalfSize) 0 upperByes
  let l := processHalf (players.drop upperHalfSize) u.2 byesCount
  u.1 ++ l.1

/-- The Seeder of the specification: lines 88-90 of `generateBracket`
(compute the bye count for the player count, then distribute the byes). -/
def seed (players : List Player) : List Player :=
  distributeByes players (calculateByes players.length)

/-- Lines 95-110: the first-round match pairing slots `2j` and `2j + 1`.
JavaScript's `player1?.isBye ? player2 : player2?.isBye ? player1 :
undefined` becomes the nested `if` below. -/
def firstRoundMatch (slots : List Player) (j : Nat) : Match :=
  let player1 := slots.get? (2 * j)
  let player2 := slots.get? (2 * j + 1)
  let winner :=
    if player1.elim false Player.isBye then player2
    else if player2.elim false Player.isBye then player1
    else none
  { id := "r1-m" ++ Nat.repr (j + 1), round := 1,
    player1 := player1, player2 := player2, winner := winner }

/-- Lines 125-133: a match of a round `≥ 2`, reading the (still absent)
winners of matches `2i` and `2i + 1` of the previous round. -/
def mkLaterMatch (roundNo : Nat) (prev : List Match) (i : Nat) : Match :=
  { id := "r" ++ Nat.repr roundNo ++ "-m" ++ Nat.repr (i + 1),
    round := roundNo,
    player1 := (prev.get? (2 * i)).bind Match.winner,
    player2 := (prev.get? (2 * i + 1)).bind Match.winner }

/-- Lines 115-137: the `for (round = 2; round <= numRounds; round++)` loop,
with `fuel` iterations remaining; each round reads the previously built
round (`rounds[round - 2]`). -/
def mkLaterRounds (numRounds roundNo : Nat) (prev : List Match) :
    Nat → List (List Match)
  | 0 => []
  | f + 1 =>
    let r := (List.range (2 ^ (numRounds - roundNo))).map (mkLaterMatch roundNo prev)
    r :: mkLaterRounds numRounds (roundNo + 1) r f

/-- Lines 92-138 of `generateBracket`, from the padded slot list onward:
the BracketBuilder of the specification.  `numRounds = Math.log2
(totalSlots)`; the seeder always hands over a power-of-two (or, for empty
input, zero) slot count, for which the integer `log2` agrees with the
JavaScript value as a loop bound.  The first-round loop steps by 2 and therefore runs
`⌈totalSlots / 2⌉` times. -/
def build (playersWithByes : List Player) : Bracket :=
  let totalSlots := playersWithByes.length
  let numRounds := log2 totalSlots
  let firstRound :=
    (List.range ((totalSlots + 1) / 2)).map (firstRoundMatch playersWithByes)
  { rounds := firstRound :: mkLaterRounds numRounds 2 firstRound (numRounds - 1) }

/-- Lines 87-141: seed, then build. -/
def generateBracket (players : List Player) : Bracket :=
  build (seed players)

/-- Lines 147-149: `findIndex` of the round containing `matchId`. -/
def locateRound (bracket : Bracket) (matchId : String) : Option Nat :=
  bracket.rounds.findIdx? (fun round => round.any (fun m => m.id == matchId))

/-- Line 153: `findIndex` of the match with `matchId` within its round. -/
def locateMatch (round : List Match) (matchId : String) : Nat :=
  round.findIdx (fun m => m.id == matchId)

/-- Line 157: `match.player1?.isBye || match.player2?.isBye`. -/
def hasBye (m : Match) : Bool :=
  m.player1.elim false Player.isBye || m.player2.elim false Player.isBye

/-- Line 160: `match.player1?.id === winnerId ? match.player1 :
match.player2`. -/
def resolveWinner (m : Match) (winnerId : String) : Option Player :=
  if m.player1.elim false (fun p => p.id == winnerId) then m.player1
  else m.player2

/-- Lines 169-176: the parent match receives the winner in its first slot
when `matchIndex` is even and its second slot otherwise, and its own
winner is reset. -/
def propagateToParent (nextRoundMatch : Match) (matchIndex : Nat)
    (winner : Option Player) : Match :=
  { nextRoundMatch with
    player1 := if matchIndex % 2 = 0 then winner else nextRoundMatch.player1,
    player2 := if ¬ matchIndex % 2 = 0 then winner else nextRoundMatch.player2,
    winner := none }

/-- Lines 143-180: the Propagator.  The located match has its winner set to
`player1` when `player1?.id === winnerId` and to `player2` otherwise; if
the match is not in the last round, the winner is copied into slot 1
(even `matchIndex`) or slot 2 (odd) of match `⌊matchIndex / 2⌋` of the
next round, whose own winner is reset.  Out-of-bounds reads (impossible
for structurally well-formed brackets) are modelled with `getD`. -/
def updateBracketWithWinner (bracket : Bracket) (matchId winnerId : String) :
    Bracket :=
  match locateRound bracket matchId with
  | none => bracket
  | some roundIndex =>
    let round := bracket.rounds.getD roundIndex []
    let matchIndex := locateMatch round matchId
    let m := round.getD matchIndex default
    if hasBye m then
      bracket
    else
      let winner := resolveWinner m winnerId
      let rounds1 :=
        bracket.rounds.set roundIndex (round.set matchIndex { m with winner := winner })
      if roundIndex < bracket.rounds.length - 1 then
        let nextRoundMatchIndex := matchIndex / 2
        let nextRound := rounds1.getD (roundIndex + 1) []
        let updated :=
          propagateToParent (nextRound.getD nextRoundMatchIndex default) matchIndex winner
        { rounds := rounds1.set (roundIndex + 1) (nextRound.set nextRoundMatchIndex updated) }
      else
        { rounds := rounds1 }

/-- The match stored at round index `ri`, position `mi` of a bracket
(an observer used to state the propagation theorems). -/
def matchAt (bracket : Bracket) (ri mi : Nat) : Match :=
  (bracket.rounds.getD ri []).getD mi default

/-- Two matches agree on the fields the Propagator never rewrites: id,
round number and annotation text (an observer used to state the frame
theorems). -/
def sameStaticFields (a b : Match) : Prop :=
  a.id = b.id ∧ a.round = b.round ∧ a.annotations = b.annotations

/-- A real competitor with the given id (fixture helper for the concrete
instances below). -/
def comp (s : String) : Player :=
  { id := s, name := s }

/-!
The fuel-based logarithms agree with Mathlib's.
-/

/-- With fuel at least `n`, the fuel-based ceiling log₂ is `Nat.clog 2`. -/
lemma clog2Aux_eq (fuel : Nat) : ∀ n : Nat, n ≤ fuel → clog2Aux fuel n = Nat.clog 2 n := by
  induction fuel with
  | zero =>
    intro n h
    have : n = 0 := by omega
    subst this
    simp [clog2Aux, Nat.clog_zero_right]
  | succ f ih =>
    intro n h
    rw [clog2Aux]
    by_cases h1 : 1 < n
    · rw [if_pos h1, Nat.clog, dif_pos (show 1 < 2 ∧ 1 < n from ⟨by norm_num, h1⟩)]
      have harg : (n + 2 - 1) / 2 = (n + 1) / 2 := by omega
      rw [harg, ih ((n + 1) / 2) (by omega)]
    · rw [if_neg h1]
      interval_cases n
      · simp [Nat.clog_zero_right]
      · simp [Nat.clog_one_right]

/-- `clog2` computes `Nat.clog 2`. -/
lemma clog2_eq (n : Nat) : clog2 n = Nat.clog 2 n :=
  clog2Aux_eq n n le_rfl

/-- With fuel at least `n`, the fuel-based floor log₂ is `Nat.log2`. -/
lemma log2Aux_eq (fuel : Nat) : ∀ n : Nat, n ≤ fuel → log2Aux fuel n = Nat.log2 n := by
  induction fuel with
  | zero =>
    intro n h
    have : n = 0 := by omega
    subst this
    rw [log2Aux, Nat.log2]
    simp
  | succ f ih =>
    intro n h
    rw [log2Aux, Nat.log2]
    by_cases h1 : 2 ≤ n
    · rw [if_pos h1, if_pos h1, ih (n / 2) (by omega)]
    · rw [if_neg h1, if_neg h1]

/-- `log2` computes `Nat.log2`. -/
lemma log2_eq (n : Nat) : log2 n = Nat.log2 n :=
  log2Aux_eq n n le_rfl

/-!
Injectivity of the decimal string representation, needed to tell the
generated identifiers `bye-1`, `bye-2`, ... apart.
-/

/-- Decimal digit characters are distinct for distinct digits below 10. -/
lemma digitChar_injOn : ∀ a < 10, ∀ b < 10, Nat.digitChar a = Nat.digitChar b → a = b := by
  decide

/-- Mapping `Nat.digitChar` over lists of digits below 10 is injective. -/
lemma map_digitChar_inj : ∀ l1 l2 : List Nat, (∀ d ∈ l1, d < 10) → (∀ d ∈ l2, d < 10) →
    l1.map Nat.digitChar = l2.map Nat.digitChar → l1 = l2 := by
  intro l1
  induction l1 with
  | nil => intro l2 _ _ h; cases l2 <;> simp_all
  | cons a t ih =>
    intro l2 h1 h2 h
    cases l2 with
    | nil => simp_all
    | cons b t2 =>
      simp only [List.map_cons, List.cons.injEq] at h
      have ha : a = b := digitChar_injOn a (h1 a (by simp)) b (h2 b (by simp)) h.1
      have ht : t = t2 := ih t2 (fun d hd => h1 d (by simp [hd])) (fun d hd => h2 d (by simp [hd])) h.2
      simp [ha, ht]

/-- With enough fuel, `Nat.toDigitsCore` prepends the base-10 digit
characters of `n` (most significant first) to its accumulator. -/
lemma toDigitsCore_eq_digits :
    ∀ (fuel n : Nat) (ds : List Char), n < fuel →
      Nat.toDigitsCore 10 fuel n ds =
        (if n = 0 then ['0'] else ((Nat.digits 10 n).map Nat.digitChar).reverse) ++ ds := by
  intro fuel
  induction fuel with
  | zero => intro n ds h; omega
  | succ f ih =>
    intro n ds h
    rw [Nat.toDigitsCore]
    by_cases h0 : n / 10 = 0
    · simp only [h0, if_pos rfl]
      by_cases hn : n = 0
      · subst hn; simp [Nat.digitChar]
      · have hlt : n < 10 := by omega
        rw [if_neg hn, Nat.digits_def' (by norm_num) (Nat.pos_of_ne_zero hn), h0]
        simp [Nat.mod_eq_of_lt hlt]
    · rw [if_neg h0]
      have hdiv : n / 10 < f := by
        have : n / 10 < n := Nat.div_lt_self (by omega) (by norm_num)
        omega
      rw [ih (n / 10) _ hdiv, if_neg h0]
      have hn : n ≠ 0 := by omega
      rw [Nat.digits_def' (b := 10) (by norm_num) (Nat.pos_of_ne_zero hn), if_neg hn]
      simp

/-- The character list produced by `Nat.toDigits 10`. -/
lemma toDigits_eq (n : Nat) :
    Nat.toDigits 10 n =
      (if n = 0 then ['0'] else ((Nat.digits 10 n).map Nat.digitChar).reverse) := by
  have := toDigitsCore_eq_digits (n + 1) n [] (Nat.lt_succ_self n)
  simpa [Nat.toDigits] using this

/-- The decimal string representation of a natural number determines it. -/
lemma repr_injective : Function.Injective Nat.repr := by
  intro a b h
  have hdata : Nat.toDigits 10 a = Nat.toDigits 10 b := by
    have := congrArg String.data h
    simpa [Nat.repr, List.asString] using this
  rw [toDigits_eq, toDigits_eq] at hdata
  by_cases ha : a = 0 <;> by_cases hb : b = 0
  · omega
  · exfalso
    rw [if_pos ha, if_neg hb] at hdata
    have hrev : (Nat.digits 10 b).map Nat.digitChar = ['0'] := by
      have := congrArg List.reverse hdata
      simpa using this.symm
    rcases List.map_eq_cons_iff.mp hrev with ⟨d, t, hdig, hd, ht⟩
    have ht' : t = [] := by cases t <;> simp_all
    have hmem : d ∈ Nat.digits 10 b := by rw [hdig]; simp
    have hd10 : d < 10 := Nat.digits_lt_base (by norm_num) hmem
    have hd0 : d = 0 := digitChar_injOn d hd10 0 (by norm_num) (by simpa [Nat.digitChar] using hd)
    have : b = 0 := by
      have := Nat.ofDigits_digits 10 b
      rw [hdig, ht', hd0] at this
      simpa [Nat.ofDigits] using this.symm
    exact hb this
  · exfalso
    rw [if_neg ha, if_pos hb] at hdata
    have hrev : (Nat.digits 10 a).map Nat.digitChar = ['0'] := by
      have := congrArg List.reverse hdata
      simpa using this
    rcases List.map_eq_cons_iff.mp hrev with ⟨d, t, hdig, hd, ht⟩
    have ht' : t = [] := by cases t <;> simp_all
    have hmem : d ∈ Nat.digits 10 a := by rw [hdig]; simp
    have hd10 : d < 10 := Nat.digits_lt_base (by norm_num) hmem
    have hd0 : d = 0 := digitChar_injOn d hd10 0 (by norm_num) (by simpa [Nat.digitChar] using hd)
    have : a = 0 := by
      have := Nat.ofDigits_digits 10 a
      rw [hdig, ht', hd0] at this
      simpa [Nat.ofDigits] using this.symm
    exact ha this
  · rw [if_neg ha, if_neg hb] at hdata
    have hmap : (Nat.digits 10 a).map Nat.digitChar = (Nat.digits 10 b).map Nat.digitChar :=
      List.reverse_injective hdata
    have hdig : Nat.digits 10 a = Nat.digits 10 b :=
      map_digitChar_inj _ _ (fun d hd => Nat.digits_lt_base (by norm_num) hd)
        (fun d hd => Nat.digits_lt_base (by norm_num) hd) hmap
    exact Nat.digits_inj_iff.mp hdig

/-- Distinct bye indices yield distinct bye identifiers. -/
lemma createBye_id_inj {i j : Nat} (h : (createBye i).id = (createBye j).id) : i = j := by
  simp only [createBye] at h
  have hdata := congrArg String.data h
  simp only [String.data_append] at hdata
  have htail := List.append_cancel_left hdata
  have hrepr : Nat.repr (i + 1) = Nat.repr (j + 1) := by
    apply congrArg String.mk at htail
    simpa using htail
  have := repr_injective hrepr
  omega

/-!
Structure of the seeder's output: `distributeByes` emits every input player
exactly once and the byes `createBye 0`, ..., `createBye (byesCount - 1)`
exactly once, in some interleaving.
-/

/-- The final bye index of the boundary loop moves from `byeIndex` up to at
most `max byeIndex cap`. -/
lemma placeBoundaryByes_snd_bounds (half : List Player) (n i byeIndex cap : Nat) :
    byeIndex ≤ (placeBoundaryByes half n i byeIndex cap).2 ∧
      (placeBoundaryByes half n i byeIndex cap).2 ≤ max byeIndex cap := by
  induction half generalizing i byeIndex with
  | nil => simp [placeBoundaryByes]
  | cons p rest ih =>
    rw [placeBoundaryByes]
    split
    next hcond =>
      dsimp only
      have h := ih (i + 1) (byeIndex + 1)
      have hlt : byeIndex < cap := hcond.2
      omega
    next =>
      dsimp only
      exact ih (i + 1) byeIndex

/-- The boundary loop emits the walked half together with the byes it
consumed from the pool, in some order. -/
lemma placeBoundaryByes_perm (half : List Player) (n i byeIndex cap : Nat) :
    (placeBoundaryByes half n i byeIndex cap).1 ~
      half ++ (List.range ((placeBoundaryByes half n i byeIndex cap).2 - byeIndex)).map
        (fun j => createBye (byeIndex + j)) := by
  induction half generalizing i byeIndex with
  | nil => simp [placeBoundaryByes]
  | cons p rest ih =>
    rw [placeBoundaryByes]
    split
    next hcond =>
      dsimp only
      have hge := (placeBoundaryByes_snd_bounds rest n (i + 1) (byeIndex + 1) cap).1
      set r := placeBoundaryByes rest n (i + 1) (byeIndex + 1) cap with hr
      have hk : r.2 - byeIndex = (r.2 - (byeIndex + 1)) + 1 := by omega
      rw [hk, List.range_succ_eq_map, List.map_cons, List.map_map]
      have hfun : (fun j => createBye (byeIndex + j)) ∘ Nat.succ =
          fun j => createBye (byeIndex + 1 + j) := by
        funext j
        simp only [Function.comp]
        exact congrArg createBye (by omega)
      rw [hfun]
      simp only [Nat.add_zero]
      refine Perm.trans ?_ List.perm_middle.symm
      exact Perm.cons _ (Perm.cons _ (ih (i + 1) (byeIndex + 1)))
    next =>
      dsimp only
      exact Perm.cons _ (ih (i + 1) byeIndex)

/-- A processed half emits the half itself plus the byes with indices from
`startIdx` up to `cap`, in some order, and leaves the bye index at `cap`. -/
lemma processHalf_perm (half : List Player) (startIdx cap : Nat) (h : startIdx ≤ cap) :
    (processHalf half startIdx cap).1 ~
      half ++ (List.range (cap - startIdx)).map (fun j => createBye (startIdx + j)) ∧
      (processHalf half startIdx cap).2 = cap := by
  obtain ⟨h1, h2⟩ := placeBoundaryByes_snd_bounds half half.length 0 startIdx cap
  have hle : (placeBoundaryByes half half.length 0 startIdx cap).2 ≤ cap := by omega
  constructor
  · show (placeBoundaryByes half half.length 0 startIdx cap).1 ++
      fillByes (placeBoundaryByes half half.length 0 startIdx cap).2 cap ~ _
    set r := placeBoundaryByes half half.length 0 startIdx cap with hr
    have hsplit : cap - startIdx = (r.2 - startIdx) + (cap - r.2) := by omega
    rw [hsplit, List.range_add, List.map_append, List.map_map]
    have hfun : (fun j => createBye (startIdx + j)) ∘ (fun j => r.2 - startIdx + j) =
        fun j => createBye (r.2 + j) := by
      funext j
      simp only [Function.comp]
      exact congrArg createBye (by omega)
    rw [hfun, ← List.append_assoc]
    exact Perm.append (placeBoundaryByes_perm half half.length 0 startIdx cap) (Perm.refl _)
  · show max (placeBoundaryByes half half.length 0 startIdx cap).2 cap = cap
    omega

/-- The upper half's bye allocation never exceeds the total bye count. -/
lemma upperByes_le (totalPlayers byesCount : Nat) :
    (if byesCount % 2 = 0 then byesCount / 2
     else if totalPlayers % 2 ≠ 0 then byesCount / 2
     else (byesCount + 1) / 2) ≤ byesCount := by
  split
  · omega
  · split <;> omega

/-- The slot list produced by `distributeByes` is, up to order, the input
players followed by the byes `createBye 0`, ..., `createBye (byesCount-1)`. -/
theorem distributeByes_perm (players : List Player) (byesCount : Nat) :
    distributeByes players byesCount ~ players ++ (List.range byesCount).map createBye := by
  unfold distributeByes
  dsimp only
  set upperHalfSize :=
    if players.length % 2 ≠ 0 then (players.length + 1) / 2 else players.length / 2 with hsz
  set upperByes :=
    if byesCount % 2 = 0 then byesCount / 2
    else if players.length % 2 ≠ 0 then byesCount / 2
    else (byesCount + 1) / 2 with hub
  have hub_le : upperByes ≤ byesCount := upperByes_le players.length byesCount
  obtain ⟨hu_perm, hu_snd⟩ := processHalf_perm (players.take upperHalfSize) 0 upperByes
    (Nat.zero_le _)
  rw [hu_snd]
  obtain ⟨hl_perm, _⟩ := processHalf_perm (players.drop upperHalfSize) upperByes byesCount hub_le
  refine Perm.trans (Perm.append hu_perm hl_perm) ?_
  have hA : (List.range (upperByes - 0)).map (fun j => createBye (0 + j)) =
      (List.range upperByes).map createBye := by
    simp
  have hsplit : byesCount = upperByes + (byesCount - upperByes) := by omega
  have hB : (List.range byesCount).map createBye =
      (List.range upperByes).map createBye ++
        (List.range (byesCount - upperByes)).map (fun j => createBye (upperByes + j)) := by
    conv_lhs => rw [hsplit]
    rw [List.range_add, List.map_append, List.map_map]
    simp [Function.comp]
  rw [hA, hB]
  conv_rhs => rw [← List.take_append_drop upperHalfSize players]
  set a := List.take upperHalfSize players
  set b := List.drop upperHalfSize players
  set x := (List.range upperByes).map createBye
  set y := (List.range (byesCount - upperByes)).map (fun j => createBye (upperByes + j))
  calc (a ++ x) ++ (b ++ y)
      = a ++ (x ++ (b ++ y)) := by simp [List.append_assoc]
    _ ~ a ++ (b ++ (x ++ y)) := by
        refine Perm.append_left a ?_
        calc x ++ (b ++ y) = (x ++ b) ++ y := by simp [List.append_assoc]
          _ ~ (b ++ x) ++ y := Perm.append_right y (List.perm_append_comm)
          _ = b ++ (x ++ y) := by simp [List.append_assoc]
    _ = (a ++ b) ++ (x ++ y) := by simp [List.append_assoc]

/-- C1: for every non-empty ordered list of N competitors, `seed` returns a
slot list whose length is the smallest power of two that is greater than
or equal to N, and the number of bye entries in that list equals that
power of two minus N. -/
theorem seed_length_smallest_pow_byeCount (players : List Player)
    (hne : players ≠ []) (hreal : ∀ p ∈ players, p.isBye = false) :
    (seed players).length = 2 ^ clog2 players.length ∧
    players.length ≤ 2 ^ clog2 players.length ∧
    (∀ j : Nat, players.length ≤ 2 ^ j → 2 ^ clog2 players.length ≤ 2 ^ j) ∧
    (seed players).countP (fun p => p.isBye) =
      2 ^ clog2 players.length - players.length := by
  have hn0 : players.length ≠ 0 := fun h => hne (List.length_eq_zero.mp h)
  have hc : calculateByes players.length = 2 ^ clog2 players.length - players.length := by
    rw [calculateByes, if_neg hn0]
  have hperm := distributeByes_perm players (calculateByes players.length)
  have hle : players.length ≤ 2 ^ clog2 players.length := by
    rw [clog2_eq]
    exact Nat.le_pow_clog (by norm_num) _
  refine ⟨?_, hle, ?_, ?_⟩
  · rw [seed, hperm.length_eq]
    simp only [List.length_append, List.length_map, List.length_range, hc]
    omega
  · intro j hj
    rw [clog2_eq]
    exact Nat.pow_le_pow_right (by norm_num) ((Nat.le_pow_iff_clog_le (by norm_num)).mp hj)
  · rw [seed, hperm.countP_eq, List.countP_append]
    have h1 : players.countP (fun p => p.isBye) = 0 := by
      rw [List.countP_eq_zero]
      intro a ha
      show ¬ a.isBye = true
      simp [hreal a ha]
    have h2 : ((List.range (calculateByes players.length)).map createBye).countP
        (fun p => p.isBye) = calculateByes players.length := by
      rw [List.countP_map]
      have hcomp : ((fun p : Player => p.isBye) ∘ createBye) = fun _ => true := by
        funext j
        simp [createBye]
      rw [hcomp]
      simp
    rw [h1, h2, hc]
    omega

/-- Witness for C1 at three competitors: the padded list has 4 slots, one
of them a bye. -/
theorem seed_length_smallest_pow_byeCount_witness :
    ((seed [comp "w1", comp "w2", comp "w3"]).length =
        2 ^ clog2 [comp "w1", comp "w2", comp "w3"].length ∧
      [comp "w1", comp "w2", comp "w3"].length ≤
        2 ^ clog2 [comp "w1", comp "w2", comp "w3"].length ∧
      (∀ j : Nat, [comp "w1", comp "w2", comp "w3"].length ≤ 2 ^ j →
        2 ^ clog2 [comp "w1", comp "w2", comp "w3"].length ≤ 2 ^ j) ∧
      (seed [comp "w1", comp "w2", comp "w3"]).countP (fun p => p.isBye) =
        2 ^ clog2 [comp "w1", comp "w2", comp "w3"].length -
          [comp "w1", comp "w2", comp "w3"].length) ∧
    (seed [comp "w1", comp "w2", comp "w3"]).length = 4 ∧
    (seed [comp "w1", comp "w2", comp "w3"]).countP (fun p => p.isBye) = 1 :=
  ⟨seed_length_smallest_pow_byeCount [comp "w1", comp "w2", comp "w3"]
      (by decide) (by decide),
    by decide, by decide⟩

/-- C9: for every non-empty competitor list (of distinct real competitors),
every bye entry produced by `seed` has a distinct identifier and is
flagged `isBye = true`, and every real competitor of the input appears
exactly once in the output. -/
theorem seed_byes_distinct_competitors_once (players : List Player)
    (hne : players ≠ []) (hnd : players.Nodup)
    (hreal : ∀ p ∈ players, p.isBye = false) :
    ((seed players).filter (fun p => p.isBye)).Pairwise (fun a b => a.id ≠ b.id) ∧
    (∀ p ∈ (seed players).filter (fun p => p.isBye), p.isBye = true) ∧
    (∀ c ∈ players, (seed players).count c = 1) := by
  have hperm : seed players ~
      players ++ (List.range (calculateByes players.length)).map createBye :=
    distributeByes_perm players (calculateByes players.length)
  have hfil : (seed players).filter (fun p => p.isBye) ~
      (List.range (calculateByes players.length)).map createBye := by
    have h := hperm.filter (fun p => p.isBye)
    rw [List.filter_append] at h
    have h1 : players.filter (fun p => p.isBye) = [] := by
      rw [List.filter_eq_nil_iff]
      intro a ha
      show ¬ a.isBye = true
      simp [hreal a ha]
    have h2 : ((List.range (calculateByes players.length)).map createBye).filter
        (fun p => p.isBye) =
        (List.range (calculateByes players.length)).map createBye := by
      rw [List.filter_eq_self]
      intro a ha
      obtain ⟨j, _, rfl⟩ := List.mem_map.mp ha
      simp [createBye]
    rw [h1, h2] at h
    simpa using h
  refine ⟨?_, ?_, ?_⟩
  · refine (List.Perm.pairwise_iff (fun h => Ne.symm h) hfil).mpr ?_
    rw [List.pairwise_map]
    have : (List.range (calculateByes players.length)).Pairwise (· < ·) :=
      List.pairwise_lt_range _
    refine this.imp ?_
    intro i j hij heq
    exact absurd (createBye_id_inj heq) (by omega)
  · intro p hp
    simpa using (List.mem_filter.mp hp).2
  · intro c hc
    rw [hperm.count_eq, List.count_append]
    have h1 : players.count c = 1 := List.count_eq_one_of_mem hnd hc
    have h2 : ((List.range (calculateByes players.length)).map createBye).count c = 0 := by
      rw [List.count_eq_zero]
      intro hmem
      obtain ⟨j, _, rfl⟩ := List.mem_map.mp hmem
      have := hreal _ hc
      simp [createBye] at this
    omega

/-- Witness for C9 at three competitors. -/
theorem seed_byes_distinct_competitors_once_witness :
    (((seed [comp "w1", comp "w2", comp "w3"]).filter
        (fun p => p.isBye)).Pairwise (fun a b => a.id ≠ b.id) ∧
      (∀ p ∈ (seed [comp "w1", comp "w2", comp "w3"]).filter (fun p => p.isBye),
        p.isBye = true) ∧
      (∀ c ∈ [comp "w1", comp "w2", comp "w3"],
        (seed [comp "w1", comp "w2", comp "w3"]).count c = 1)) ∧
    (seed [comp "w1", comp "w2", comp "w3"]).count (comp "w2") = 1 :=
  ⟨seed_byes_distinct_competitors_once [comp "w1", comp "w2", comp "w3"]
      (by decide) (by decide) (by decide),
    by decide⟩

/-- C6: seeding exactly the five competitors c1..c5 yields the eight slots
`[bye, c1, c2, c3, bye, c4, bye, c5]` with three distinct byes, the lower
half receiving two of them (its boundary loop is bounded by the total bye
count). -/
theorem seed_five_exact_order :
    seed [comp "c1", comp "c2", comp "c3", comp "c4", comp "c5"] =
      [{ id := "bye-1", name := "BYE", isBye := true }, comp "c1", comp "c2",
        comp "c3", { id := "bye-2", name := "BYE", isBye := true }, comp "c4",
        { id := "bye-3", name := "BYE", isBye := true }, comp "c5"] := by
  decide

/-- C5 (divergence evidence): seeding and building from the empty
competitor list does not fail with any error; `generateBracket` returns a
degenerate bracket consisting of one empty round, and the seeder itself
returns the empty slot list.  All operations of the module are total, so
no input can produce a hard failure. -/
theorem generateBracket_empty_no_failure :
    generateBracket [] = { rounds := [[]] } ∧ seed [] = [] := by
  constructor <;> decide

/-!
Shape of the bracket produced by `build`.
-/

/-- The later-rounds loop emits exactly one round per remaining iteration. -/
lemma mkLaterRounds_length (numRounds : Nat) :
    ∀ (fuel roundNo : Nat) (prev : List Match),
      (mkLaterRounds numRounds roundNo prev fuel).length = fuel := by
  intro fuel
  induction fuel with
  | zero => intro roundNo prev; rfl
  | succ f ih =>
    intro roundNo prev
    rw [mkLaterRounds]
    simp [ih]

/-- The round at offset `p` of the later-rounds loop (round number
`roundNo + p`) has `2 ^ (numRounds - (roundNo + p))` matches. -/
lemma mkLaterRounds_round_length (numRounds : Nat) :
    ∀ (fuel roundNo p : Nat) (prev : List Match), p < fuel →
      ((mkLaterRounds numRounds roundNo prev fuel).getD p []).length =
        2 ^ (numRounds - (roundNo + p)) := by
  intro fuel
  induction fuel with
  | zero => intro roundNo p prev h; omega
  | succ f ih =>
    intro roundNo p prev hp
    rw [mkLaterRounds]
    cases p with
    | zero => simp
    | succ q =>
      have := ih (roundNo + 1) q
        ((List.range (2 ^ (numRounds - roundNo))).map (mkLaterMatch roundNo prev))
        (by omega)
      simpa [Nat.add_assoc, Nat.add_comm 1 q] using this

/-- Every match emitted by the later-rounds loop has no winner. -/
lemma mkLaterRounds_winner_none (numRounds : Nat) :
    ∀ (fuel roundNo : Nat) (prev : List Match),
      ∀ rl ∈ mkLaterRounds numRounds roundNo prev fuel, ∀ m ∈ rl, m.winner = none := by
  intro fuel
  induction fuel with
  | zero => intro roundNo prev rl h; simp [mkLaterRounds] at h
  | succ f ih =>
    intro roundNo prev rl hrl m hm
    rw [mkLaterRounds] at hrl
    simp only [List.mem_cons] at hrl
    rcases hrl with rfl | htail
    · obtain ⟨i, _, rfl⟩ := List.mem_map.mp hm
      rfl
    · exact ih (roundNo + 1) _ rl htail m hm

/-- C7 counterexample: a slot list of length `2 ^ 0 = 1` produces one
round, not zero rounds. -/
theorem build_single_slot_not_zero_rounds :
    [comp "c1"].length = 2 ^ 0 ∧ (build [comp "c1"]).rounds.length = 1 ∧
      (build [comp "c1"]).rounds.length ≠ 0 := by
  refine ⟨by decide, by decide, by decide⟩

/-- C7 amended (restricted to `k ≥ 1`): `build` on a slot list of length
`2 ^ k` produces exactly `k` rounds, round `r` (1-based) has `2 ^ (k - r)`
matches — so twice the round-1 match count is the slot count — and round-1
match `r1-m(i+1)` pairs the consecutive slots at indices `2i` and
`2i + 1`. -/
theorem build_rounds_structure (slots : List Player) (k : Nat) (hk : 1 ≤ k)
    (hlen : slots.length = 2 ^ k) :
    (build slots).rounds.length = k ∧
    (∀ r, 1 ≤ r → r ≤ k →
      ((build slots).rounds.getD (r - 1) []).length = 2 ^ (k - r)) ∧
    2 * ((build slots).rounds.getD 0 []).length = slots.length ∧
    (∀ i, i < 2 ^ (k - 1) →
      (((build slots).rounds.getD 0 []).getD i default).id =
          "r1-m" ++ Nat.repr (i + 1) ∧
      (((build slots).rounds.getD 0 []).getD i default).player1 =
          slots.get? (2 * i) ∧
      (((build slots).rounds.getD 0 []).getD i default).player2 =
          slots.get? (2 * i + 1)) := by
  have hlog : log2 slots.length = k := by
    rw [hlen, log2_eq, Nat.log2_eq_log_two, Nat.log_pow (by norm_num)]
  have hpow : 2 ^ k = 2 * 2 ^ (k - 1) := by
    conv_lhs => rw [show k = (k - 1) + 1 from by omega]
    rw [pow_succ]
    ring
  have hfr : (slots.length + 1) / 2 = 2 ^ (k - 1) := by
    rw [hlen]
    omega
  have hbuild : (build slots).rounds =
      (List.range (2 ^ (k - 1))).map (firstRoundMatch slots) ::
        mkLaterRounds k 2 ((List.range (2 ^ (k - 1))).map (firstRoundMatch slots))
          (k - 1) := by
    rw [build]
    simp only [hlog, hfr]
  refine ⟨?_, ?_, ?_, ?_⟩
  · rw [hbuild]
    simp only [List.length_cons, mkLaterRounds_length]
    omega
  · intro r hr1 hrk
    rw [hbuild]
    cases hr : r - 1 with
    | zero => simp [hr, show k - r = k - 1 by omega]
    | succ q =>
      have hq : q < k - 1 := by omega
      have := mkLaterRounds_round_length k (k - 1) 2 q
        ((List.range (2 ^ (k - 1))).map (firstRoundMatch slots)) hq
      simp only [List.getD_cons_succ]
      rw [this]
      congr 1
      omega
  · rw [hbuild]
    simp only [List.getD_cons_zero, List.length_map, List.length_range]
    rw [hlen]
    omega
  · intro i hi
    rw [hbuild]
    simp only [List.getD_cons_zero]
    have hget : ((List.range (2 ^ (k - 1))).map (firstRoundMatch slots)).getD i default =
        firstRoundMatch slots i := by
      rw [List.getD_eq_getElem?_getD, List.getElem?_map, List.getElem?_range hi]
      rfl
    rw [hget]
    exact ⟨rfl, rfl, rfl⟩

/-- Witness for C7 (amended) on four concrete slots: two rounds, two
round-1 matches pairing the slots in order. -/
theorem build_rounds_structure_witness :
    ((build [comp "a", comp "b", comp "c", comp "d"]).rounds.length = 2 ∧
      (∀ r, 1 ≤ r → r ≤ 2 →
        ((build [comp "a", comp "b", comp "c", comp "d"]).rounds.getD (r - 1) []).length =
          2 ^ (2 - r)) ∧
      2 * ((build [comp "a", comp "b", comp "c", comp "d"]).rounds.getD 0 []).length =
        [comp "a", comp "b", comp "c", comp "d"].length ∧
      (∀ i, i < 2 ^ (2 - 1) →
        (((build [comp "a", comp "b", comp "c", comp "d"]).rounds.getD 0 []).getD i
            default).id = "r1-m" ++ Nat.repr (i + 1) ∧
        (((build [comp "a", comp "b", comp "c", comp "d"]).rounds.getD 0 []).getD i
            default).player1 = [comp "a", comp "b", comp "c", comp "d"].get? (2 * i) ∧
        (((build [comp "a", comp "b", comp "c", comp "d"]).rounds.getD 0 []).getD i
            default).player2 = [comp "a", comp "b", comp "c", comp "d"].get? (2 * i + 1))) ∧
    (build [comp "a", comp "b", comp "c", comp "d"]).rounds.length = 2 :=
  ⟨build_rounds_structure [comp "a", comp "b", comp "c", comp "d"] 2
      (by decide) (by decide),
    by decide⟩

/-!
Behaviour of the Propagator, by case analysis on its branches.
-/

/-- Reading a list at the position just overwritten returns the new value
(when the write was in bounds). -/
lemma getD_set_self_of_lt {α : Type} (l : List α) (i : Nat) (x d : α)
    (h : i < l.length) : (l.set i x).getD i d = x := by
  simp [List.getD_eq_getElem?_getD, List.getElem?_set_self h]

/-- Reading a list at a position other than the overwritten one returns the
old value. -/
lemma getD_set_of_ne {α : Type} (l : List α) (i j : Nat) (x d : α)
    (h : i ≠ j) : (l.set i x).getD j d = l.getD j d := by
  simp [List.getD_eq_getElem?_getD, List.getElem?_set_ne h]

/-- A located round index is in bounds and its round contains the match
id. -/
lemma locateRound_some (bracket : Bracket) (matchId : String) (ri : Nat)
    (h : locateRound bracket matchId = some ri) :
    ri < bracket.rounds.length ∧
      (bracket.rounds.getD ri []).any (fun m => m.id == matchId) = true := by
  rw [locateRound, List.findIdx?_eq_some_iff_getElem] at h
  obtain ⟨hlt, hp, _⟩ := h
  refine ⟨hlt, ?_⟩
  rw [List.getD_eq_getElem?_getD, List.getElem?_eq_getElem hlt]
  exact hp

/-- The located match index is in bounds of its round. -/
lemma locateMatch_lt (round : List Match) (matchId : String)
    (h : round.any (fun m => m.id == matchId) = true) :
    locateMatch round matchId < round.length := by
  rw [locateMatch, List.findIdx_lt_length]
  simpa [List.any_eq_true] using h

/-- Branch 1 (line 151): unknown match id, no-op. -/
lemma update_of_locateRound_none (bracket : Bracket) (matchId winnerId : String)
    (h : locateRound bracket matchId = none) :
    updateBracketWithWinner bracket matchId winnerId = bracket := by
  rw [updateBracketWithWinner, h]

/-- Branch 2 (line 157): located match contains a bye, no-op. -/
lemma update_of_bye (bracket : Bracket) (matchId winnerId : String) (ri : Nat)
    (hfind : locateRound bracket matchId = some ri)
    (hbye : hasBye (matchAt bracket ri
      (locateMatch (bracket.rounds.getD ri []) matchId)) = true) :
    updateBracketWithWinner bracket matchId winnerId = bracket := by
  rw [updateBracketWithWinner, hfind]
  dsimp only
  rw [matchAt] at hbye
  rw [hbye]
  simp

/-- Branch 3 (lines 160-177): bye-free match in a non-final round; the
match receives its resolved winner and the parent match at
`⌊matchIndex / 2⌋` of the next round is rebuilt by `propagateToParent`. -/
lemma update_of_found_notlast (bracket : Bracket) (matchId winnerId : String) (ri : Nat)
    (hfind : locateRound bracket matchId = some ri)
    (hbye : hasBye (matchAt bracket ri
      (locateMatch (bracket.rounds.getD ri []) matchId)) = false)
    (hlast : ri < bracket.rounds.length - 1) :
    updateBracketWithWinner bracket matchId winnerId =
      { rounds :=
          (bracket.rounds.set ri ((bracket.rounds.getD ri []).set
              (locateMatch (bracket.rounds.getD ri []) matchId)
              { matchAt bracket ri (locateMatch (bracket.rounds.getD ri []) matchId) with
                winner := resolveWinner
                  (matchAt bracket ri (locateMatch (bracket.rounds.getD ri []) matchId))
                  winnerId })).set (ri + 1)
            ((bracket.rounds.getD (ri + 1) []).set
              (locateMatch (bracket.rounds.getD ri []) matchId / 2)
              (propagateToParent
                (matchAt bracket (ri + 1)
                  (locateMatch (bracket.rounds.getD ri []) matchId / 2))
                (locateMatch (bracket.rounds.getD ri []) matchId)
                (resolveWinner
                  (matchAt bracket ri (locateMatch (bracket.rounds.getD ri []) matchId))
                  winnerId))) } := by
  rw [updateBracketWithWinner, hfind]
  dsimp only
  rw [matchAt] at hbye
  rw [hbye]
  simp only [Bool.false_eq_true, if_false]
  rw [if_pos hlast]
  rw [getD_set_of_ne _ _ _ _ _ (by omega)]
  rfl

/-- Branch 4 (line 179): bye-free match in the final round; only the match
itself is rewritten. -/
lemma update_of_found_last (bracket : Bracket) (matchId winnerId : String) (ri : Nat)
    (hfind : locateRound bracket matchId = some ri)
    (hbye : hasBye (matchAt bracket ri
      (locateMatch (bracket.rounds.getD ri []) matchId)) = false)
    (hlast : ¬ ri < bracket.rounds.length - 1) :
    updateBracketWithWinner bracket matchId winnerId =
      { rounds :=
          bracket.rounds.set ri ((bracket.rounds.getD ri []).set
            (locateMatch (bracket.rounds.getD ri []) matchId)
            { matchAt bracket ri (locateMatch (bracket.rounds.getD ri []) matchId) with
              winner := resolveWinner
                (matchAt bracket ri (locateMatch (bracket.rounds.getD ri []) matchId))
                winnerId }) } := by
  rw [updateBracketWithWinner, hfind]
  dsimp only
  rw [matchAt] at hbye
  rw [hbye]
  simp only [Bool.false_eq_true, if_false]
  rw [if_neg hlast]
  rfl

/-- C3 counterexample: with nine real competitors the seeder places two
byes in the last two slots, so round-1 match 8 (index 7) has byes in both
slots — reachable with more than one real competitor — and `build` sets
its winner to the second bye instead of leaving it unset. -/
theorem build_both_byes_winner_set :
    (matchAt (generateBracket [comp "c1", comp "c2", comp "c3", comp "c4",
        comp "c5", comp "c6", comp "c7", comp "c8", comp "c9"]) 0 7).player1.elim
      false Player.isBye = true ∧
    (matchAt (generateBracket [comp "c1", comp "c2", comp "c3", comp "c4",
        comp "c5", comp "c6", comp "c7", comp "c8", comp "c9"]) 0 7).player2.elim
      false Player.isBye = true ∧
    (matchAt (generateBracket [comp "c1", comp "c2", comp "c3", comp "c4",
        comp "c5", comp "c6", comp "c7", comp "c8", comp "c9"]) 0 7).winner =
      some { id := "bye-7", name := "BYE", isBye := true } := by
  refine ⟨by decide, by decide, by decide⟩

/-- C3 amended: a round-1 match's winner at build time is the second slot
when the first slot is a bye (even when both slots are byes, a reachable
configuration), the first slot when only the second slot is a bye, and
absent when neither is; with exactly one bye this is the non-bye
competitor.  Rounds after the first receive no winner at build time. -/
theorem build_round1_winner_rule (slots : List Player) (i : Nat)
    (hi : i < (slots.length + 1) / 2) :
    (matchAt (build slots) 0 i).winner =
      (if (slots.get? (2 * i)).elim false Player.isBye then slots.get? (2 * i + 1)
       else if (slots.get? (2 * i + 1)).elim false Player.isBye then slots.get? (2 * i)
       else none) ∧
    (∀ rl ∈ (build slots).rounds.tail, ∀ m ∈ rl, m.winner = none) := by
  constructor
  · rw [matchAt, build]
    dsimp only
    rw [List.getD_cons_zero]
    have hget : ((List.range ((slots.length + 1) / 2)).map
        (firstRoundMatch slots)).getD i default = firstRoundMatch slots i := by
      rw [List.getD_eq_getElem?_getD, List.getElem?_map, List.getElem?_range hi]
      rfl
    rw [hget]
    rfl
  · rw [build]
    dsimp only
    intro rl hrl m hm
    rw [List.tail_cons] at hrl
    exact mkLaterRounds_winner_none _ _ _ _ rl hrl m hm

/-- Witness for C3 (amended) on a bye-and-competitor pair: the winner is
the non-bye competitor. -/
theorem build_round1_winner_rule_witness :
    ((matchAt (build [createBye 0, comp "x"]) 0 0).winner =
      (if ([createBye 0, comp "x"].get? (2 * 0)).elim false Player.isBye then
        [createBye 0, comp "x"].get? (2 * 0 + 1)
       else if ([createBye 0, comp "x"].get? (2 * 0 + 1)).elim false Player.isBye then
        [createBye 0, comp "x"].get? (2 * 0)
       else none) ∧
      (∀ rl ∈ (build [createBye 0, comp "x"]).rounds.tail, ∀ m ∈ rl,
        m.winner = none)) ∧
    (matchAt (build [createBye 0, comp "x"]) 0 0).winner = some (comp "x") :=
  ⟨build_round1_winner_rule [createBye 0, comp "x"] 0 (by decide), by decide⟩

/-- C8: `applyWinner` is a value-level no-op both when the match id occurs
nowhere in the bracket and when the located match has a bye in either
slot. -/
theorem applyWinner_noop_unknown_or_bye (bracket : Bracket)
    (matchId winnerId : String) :
    ((∀ round ∈ bracket.rounds, ∀ m ∈ round, m.id ≠ matchId) →
      updateBracketWithWinner bracket matchId winnerId = bracket) ∧
    (∀ ri, locateRound bracket matchId = some ri →
      hasBye (matchAt bracket ri
        (locateMatch (bracket.rounds.getD ri []) matchId)) = true →
      updateBracketWithWinner bracket matchId winnerId = bracket) := by
  constructor
  · intro h
    apply update_of_locateRound_none
    rw [locateRound, List.findIdx?_eq_none_iff]
    intro round hr
    rw [List.any_eq_false]
    intro m hm
    simpa using h round hr m hm
  · intro ri hfind hbye
    exact update_of_bye bracket matchId winnerId ri hfind hbye

/-- Witness for C8: an unknown match id on a two-competitor bracket, and
the bye match `r1-m2` of a three-competitor bracket. -/
theorem applyWinner_noop_unknown_or_bye_witness :
    updateBracketWithWinner (generateBracket [comp "a", comp "b"]) "r9-m9" "a" =
      generateBracket [comp "a", comp "b"] ∧
    updateBracketWithWinner (generateBracket [comp "a", comp "b", comp "c"])
        "r1-m2" "c" =
      generateBracket [comp "a", comp "b", comp "c"] :=
  ⟨(applyWinner_noop_unknown_or_bye (generateBracket [comp "a", comp "b"])
        "r9-m9" "a").1 (by decide),
    (applyWinner_noop_unknown_or_bye (generateBracket [comp "a", comp "b", comp "c"])
        "r1-m2" "c").2 0 (by decide) (by decide)⟩

/-- C4 counterexample: on a two-competitor bracket, a winner id matching
neither competitor does not clear the winner — the second competitor is
installed as winner instead. -/
theorem applyWinner_unknown_winnerId_sets_second :
    (comp "a").id ≠ "nobody" ∧ (comp "b").id ≠ "nobody" ∧
    (matchAt (updateBracketWithWinner (generateBracket [comp "a", comp "b"])
        "r1-m1" "nobody") 0 0).winner = some (comp "b") ∧
    (matchAt (updateBracketWithWinner (generateBracket [comp "a", comp "b"])
        "r1-m1" "nobody") 0 0).winner ≠ none := by
  refine ⟨by decide, by decide, by decide, by decide⟩

/-- C4 amended: on a located bye-free match the new winner is always
`resolveWinner` — `player1` if its id matches, otherwise the second
slot's competitor; in particular a winner id matching neither slot
installs the second slot's competitor (which is empty only when that slot
is empty) rather than clearing the winner or rejecting the call. -/
theorem applyWinner_winner_is_resolve (bracket : Bracket)
    (matchId winnerId : String) (ri : Nat)
    (hfind : locateRound bracket matchId = some ri)
    (hbye : hasBye (matchAt bracket ri
      (locateMatch (bracket.rounds.getD ri []) matchId)) = false) :
    (matchAt (updateBracketWithWinner bracket matchId winnerId) ri
        (locateMatch (bracket.rounds.getD ri []) matchId)).winner =
      resolveWinner (matchAt bracket ri
        (locateMatch (bracket.rounds.getD ri []) matchId)) winnerId ∧
    ((matchAt bracket ri
        (locateMatch (bracket.rounds.getD ri []) matchId)).player1.elim false
        (fun p => p.id == winnerId) = false →
      (matchAt (updateBracketWithWinner bracket matchId winnerId) ri
          (locateMatch (bracket.rounds.getD ri []) matchId)).winner =
        (matchAt bracket ri
          (locateMatch (bracket.rounds.getD ri []) matchId)).player2) := by
  obtain ⟨hri, hany⟩ := locateRound_some bracket matchId ri hfind
  have hmi : locateMatch (bracket.rounds.getD ri []) matchId <
      (bracket.rounds.getD ri []).length :=
    locateMatch_lt _ _ hany
  have hmain : (matchAt (updateBracketWithWinner bracket matchId winnerId) ri
      (locateMatch (bracket.rounds.getD ri []) matchId)).winner =
      resolveWinner (matchAt bracket ri
        (locateMatch (bracket.rounds.getD ri []) matchId)) winnerId := by
    by_cases hlast : ri < bracket.rounds.length - 1
    · rw [update_of_found_notlast bracket matchId winnerId ri hfind hbye hlast]
      rw [matchAt]
      dsimp only
      rw [getD_set_of_ne _ _ _ _ _ (by omega)]
      rw [getD_set_self_of_lt _ _ _ _ hri]
      rw [getD_set_self_of_lt _ _ _ _ hmi]
    · rw [update_of_found_last bracket matchId winnerId ri hfind hbye hlast]
      rw [matchAt]
      dsimp only
      rw [getD_set_self_of_lt _ _ _ _ hri]
      rw [getD_set_self_of_lt _ _ _ _ hmi]
  refine ⟨hmain, fun hno => ?_⟩
  rw [hmain, resolveWinner, hno]
  simp

/-- Witness for C4 (amended): the two-competitor bracket with an unknown
winner id resolves to the second competitor. -/
theorem applyWinner_winner_is_resolve_witness :
    (matchAt (updateBracketWithWinner (generateBracket [comp "a", comp "b"])
        "r1-m1" "nobody") 0
      (locateMatch ((generateBracket [comp "a", comp "b"]).rounds.getD 0 [])
        "r1-m1")).winner =
      (matchAt (generateBracket [comp "a", comp "b"]) 0
        (locateMatch ((generateBracket [comp "a", comp "b"]).rounds.getD 0 [])
          "r1-m1")).player2 ∧
    (matchAt (updateBracketWithWinner (generateBracket [comp "a", comp "b"])
        "r1-m1" "nobody") 0 0).winner = some (comp "b") :=
  ⟨(applyWinner_winner_is_resolve (generateBracket [comp "a", comp "b"])
        "r1-m1" "nobody" 0 (by decide) (by decide)).2 (by decide),
    by decide⟩

/-- Field values of the parent rebuilt by `propagateToParent`. -/
lemma propagateToParent_fields (o : Match) (mi : Nat) (w : Option Player) :
    (propagateToParent o mi w).winner = none ∧
    (propagateToParent o mi w).id = o.id ∧
    (propagateToParent o mi w).round = o.round ∧
    (propagateToParent o mi w).annotations = o.annotations ∧
    (mi % 2 = 0 → (propagateToParent o mi w).player1 = w ∧
      (propagateToParent o mi w).player2 = o.player2) ∧
    (mi % 2 ≠ 0 → (propagateToParent o mi w).player2 = w ∧
      (propagateToParent o mi w).player1 = o.player1) := by
  refine ⟨rfl, rfl, rfl, rfl, ?_, ?_⟩
  · intro h
    constructor
    · show (if mi % 2 = 0 then w else o.player1) = w
      rw [if_pos h]
    · show (if ¬ mi % 2 = 0 then w else o.player2) = o.player2
      rw [if_neg (by omega)]
  · intro h
    constructor
    · show (if ¬ mi % 2 = 0 then w else o.player2) = w
      rw [if_pos h]
    · show (if mi % 2 = 0 then w else o.player1) = o.player1
      rw [if_neg h]

/-- C2: when `applyWinner` locates a bye-free match that is not in the
final round, the resolved winner is written into the parent match at
index `⌊matchIndex / 2⌋` of the next round — into the first slot when
`matchIndex` is even and the second slot otherwise — the parent's own
winner is cleared, its other fields are kept, and nothing else changes:
the other matches of the next round and all rounds beyond it (grandparent
included) are returned unmodified, winners included. -/
theorem applyWinner_parent_propagation (bracket : Bracket)
    (matchId winnerId : String) (ri : Nat)
    (hfind : locateRound bracket matchId = some ri)
    (hbye : hasBye (matchAt bracket ri
      (locateMatch (bracket.rounds.getD ri []) matchId)) = false)
    (hlast : ri + 1 < bracket.rounds.length)
    (hbound : locateMatch (bracket.rounds.getD ri []) matchId / 2 <
      (bracket.rounds.getD (ri + 1) []).length) :
    (matchAt (updateBracketWithWinner bracket matchId winnerId) (ri + 1)
        (locateMatch (bracket.rounds.getD ri []) matchId / 2)).winner = none ∧
    (locateMatch (bracket.rounds.getD ri []) matchId % 2 = 0 →
      (matchAt (updateBracketWithWinner bracket matchId winnerId) (ri + 1)
          (locateMatch (bracket.rounds.getD ri []) matchId / 2)).player1 =
        resolveWinner (matchAt bracket ri
          (locateMatch (bracket.rounds.getD ri []) matchId)) winnerId ∧
      (matchAt (updateBracketWithWinner bracket matchId winnerId) (ri + 1)
          (locateMatch (bracket.rounds.getD ri []) matchId / 2)).player2 =
        (matchAt bracket (ri + 1)
          (locateMatch (bracket.rounds.getD ri []) matchId / 2)).player2) ∧
    (locateMatch (bracket.rounds.getD ri []) matchId % 2 ≠ 0 →
      (matchAt (updateBracketWithWinner bracket matchId winnerId) (ri + 1)
          (locateMatch (bracket.rounds.getD ri []) matchId / 2)).player2 =
        resolveWinner (matchAt bracket ri
          (locateMatch (bracket.rounds.getD ri []) matchId)) winnerId ∧
      (matchAt (updateBracketWithWinner bracket matchId winnerId) (ri + 1)
          (locateMatch (bracket.rounds.getD ri []) matchId / 2)).player1 =
        (matchAt bracket (ri + 1)
          (locateMatch (bracket.rounds.getD ri []) matchId / 2)).player1) ∧
    sameStaticFields
      (matchAt (updateBracketWithWinner bracket matchId winnerId) (ri + 1)
        (locateMatch (bracket.rounds.getD ri []) matchId / 2))
      (matchAt bracket (ri + 1)
        (locateMatch (bracket.rounds.getD ri []) matchId / 2)) ∧
    (∀ j, j ≠ locateMatch (bracket.rounds.getD ri []) matchId / 2 →
      matchAt (updateBracketWithWinner bracket matchId winnerId) (ri + 1) j =
        matchAt bracket (ri + 1) j) ∧
    (∀ r, ri + 1 < r →
      (updateBracketWithWinner bracket matchId winnerId).rounds.getD r [] =
        bracket.rounds.getD r []) := by
  obtain ⟨hri, hany⟩ := locateRound_some bracket matchId ri hfind
  have hlast' : ri < bracket.rounds.length - 1 := by omega
  rw [update_of_found_notlast bracket matchId winnerId ri hfind hbye hlast']
  have hparent : matchAt
      { rounds :=
          (bracket.rounds.set ri ((bracket.rounds.getD ri []).set
              (locateMatch (bracket.rounds.getD ri []) matchId)
              { matchAt bracket ri (locateMatch (bracket.rounds.getD ri []) matchId) with
                winner := resolveWinner
                  (matchAt bracket ri (locateMatch (bracket.rounds.getD ri []) matchId))
                  winnerId })).set (ri + 1)
            ((bracket.rounds.getD (ri + 1) []).set
              (locateMatch (bracket.rounds.getD ri []) matchId / 2)
              (propagateToParent
                (matchAt bracket (ri + 1)
                  (locateMatch (bracket.rounds.getD ri []) matchId / 2))
                (locateMatch (bracket.rounds.getD ri []) matchId)
                (resolveWinner
                  (matchAt bracket ri (locateMatch (bracket.rounds.getD ri []) matchId))
                  winnerId))) } (ri + 1)
      (locateMatch (bracket.rounds.getD ri []) matchId / 2) =
      propagateToParent
        (matchAt bracket (ri + 1)
          (locateMatch (bracket.rounds.getD ri []) matchId / 2))
        (locateMatch (bracket.rounds.getD ri []) matchId)
        (resolveWinner
          (matchAt bracket ri (locateMatch (bracket.rounds.getD ri []) matchId))
          winnerId) := by
    rw [matchAt]
    dsimp only
    rw [getD_set_self_of_lt _ _ _ _ (by simpa using hlast)]
    rw [getD_set_self_of_lt _ _ _ _ hbound]
  have hfields := propagateToParent_fields
    (matchAt bracket (ri + 1) (locateMatch (bracket.rounds.getD ri []) matchId / 2))
    (locateMatch (bracket.rounds.getD ri []) matchId)
    (resolveWinner (matchAt bracket ri
      (locateMatch (bracket.rounds.getD ri []) matchId)) winnerId)
  refine ⟨?_, ?_, ?_, ?_, ?_, ?_⟩
  · rw [hparent]
    exact hfields.1
  · intro heven
    rw [hparent]
    exact hfields.2.2.2.2.1 heven
  · intro hodd
    rw [hparent]
    exact hfields.2.2.2.2.2 hodd
  · rw [hparent]
    exact ⟨hfields.2.1, hfields.2.2.1, hfields.2.2.2.1⟩
  · intro j hj
    rw [matchAt]
    dsimp only
    rw [getD_set_self_of_lt _ _ _ _ (by simpa using hlast)]
    rw [getD_set_of_ne _ _ _ _ _ (fun h => hj h.symm)]
    rfl
  · intro r hr
    dsimp only
    rw [getD_set_of_ne _ _ _ _ _ (by omega)]
    rw [getD_set_of_ne _ _ _ _ _ (by omega)]

/-- Witness for C2 on a four-competitor bracket: declaring the winner of
`r1-m1` fills the first slot of `r2-m1` and clears its winner. -/
theorem applyWinner_parent_propagation_witness :
    (matchAt (updateBracketWithWinner (generateBracket
        [comp "a", comp "b", comp "c", comp "d"]) "r1-m1" "a") 1
      (locateMatch ((generateBracket
        [comp "a", comp "b", comp "c", comp "d"]).rounds.getD 0 []) "r1-m1" / 2)).winner
      = none ∧
    (matchAt (updateBracketWithWinner (generateBracket
        [comp "a", comp "b", comp "c", comp "d"]) "r1-m1" "a") 1 0).player1 =
      some (comp "a") ∧
    (∀ r, 1 < r →
      (updateBracketWithWinner (generateBracket
          [comp "a", comp "b", comp "c", comp "d"]) "r1-m1" "a").rounds.getD r [] =
        (generateBracket [comp "a", comp "b", comp "c", comp "d"]).rounds.getD r []) :=
  ⟨(applyWinner_parent_propagation (generateBracket
        [comp "a", comp "b", comp "c", comp "d"]) "r1-m1" "a" 0
      (by decide) (by decide) (by decide) (by decide)).1,
    by decide,
    (applyWinner_parent_propagation (generateBracket
        [comp "a", comp "b", comp "c", comp "d"]) "r1-m1" "a" 0
      (by decide) (by decide) (by decide) (by decide)).2.2.2.2.2⟩

/-- C10 counterexample: `applyWinner` on `r1-m1` of a four-competitor
bracket changes the parent match's first competitor slot (from empty to
the declared winner) — a field that is neither a winner field nor an
annotation field. -/
theorem applyWinner_changes_parent_slot :
    (matchAt (generateBracket [comp "a", comp "b", comp "c", comp "d"]) 1 0).player1 =
      none ∧
    (matchAt (updateBracketWithWinner (generateBracket
        [comp "a", comp "b", comp "c", comp "d"]) "r1-m1" "a") 1 0).player1 =
      some (comp "a") := by
  refine ⟨by decide, by decide⟩

/-- Writing a match that keeps the static fields of the overwritten entry
preserves the static fields of every position of the round. -/
lemma sameStaticFields_after_set (l : List Match) (k : Nat) (m' : Match)
    (h : sameStaticFields m' (l.getD k default)) (j : Nat) :
    sameStaticFields ((l.set k m').getD j default) (l.getD j default) := by
  by_cases hjk : j = k
  · subst hjk
    by_cases hk : j < l.length
    · rw [getD_set_self_of_lt _ _ _ _ hk]
      exact h
    · rw [List.set_eq_of_length_le (by omega)]
      exact ⟨rfl, rfl, rfl⟩
  · rw [getD_set_of_ne _ _ _ _ _ (Ne.symm hjk)]
    exact ⟨rfl, rfl, rfl⟩

/-- Replacing round `k` by a round that agrees on static fields pointwise
preserves the static fields of every match of the bracket. -/
lemma sameStaticFields_after_round_set (rounds : List (List Match)) (k : Nat)
    (R' : List Match)
    (h : ∀ j, sameStaticFields (R'.getD j default) ((rounds.getD k []).getD j default))
    (i j : Nat) :
    sameStaticFields (((rounds.set k R').getD i []).getD j default)
      ((rounds.getD i []).getD j default) := by
  by_cases hik : i = k
  · subst hik
    by_cases hk : i < rounds.length
    · rw [getD_set_self_of_lt _ _ _ _ hk]
      exact h j
    · rw [List.set_eq_of_length_le (by omega)]
      exact ⟨rfl, rfl, rfl⟩
  · rw [getD_set_of_ne _ _ _ _ _ (Ne.symm hik)]
    exact ⟨rfl, rfl, rfl⟩

/-- Replacing round `k` by a round of the same length preserves every
round's match count. -/
lemma roundLength_after_round_set (rounds : List (List Match)) (k : Nat)
    (R' : List Match) (hlen : R'.length = (rounds.getD k []).length) (i : Nat) :
    ((rounds.set k R').getD i []).length = (rounds.getD i []).length := by
  by_cases hik : i = k
  · subst hik
    by_cases hk : i < rounds.length
    · rw [getD_set_self_of_lt _ _ _ _ hk]
      exact hlen
    · rw [List.set_eq_of_length_le (by omega)]
  · rw [getD_set_of_ne _ _ _ _ _ (Ne.symm hik)]

/-- Overwriting a match by one with the same competitor slots preserves
the competitor slots of every position of the round. -/
lemma slots_after_set (l : List Match) (k : Nat) (m' : Match)
    (h1 : m'.player1 = (l.getD k default).player1)
    (h2 : m'.player2 = (l.getD k default).player2) (j : Nat) :
    ((l.set k m').getD j default).player1 = (l.getD j default).player1 ∧
    ((l.set k m').getD j default).player2 = (l.getD j default).player2 := by
  by_cases hjk : j = k
  · subst hjk
    by_cases hk : j < l.length
    · rw [getD_set_self_of_lt _ _ _ _ hk]
      exact ⟨h1, h2⟩
    · rw [List.set_eq_of_length_le (by omega)]
      exact ⟨rfl, rfl⟩
  · rw [getD_set_of_ne _ _ _ _ _ (Ne.symm hjk)]
    exact ⟨rfl, rfl⟩

/-- The competitor-slot frame of the Propagator: every match other than
the immediate parent of the located match keeps both competitor slots
(the located match itself only has its winner rewritten). -/
lemma applyWinner_slots_frame (bracket : Bracket) (matchId winnerId : String)
    (i j : Nat)
    (h : ∀ ri, locateRound bracket matchId = some ri →
      ¬(i = ri + 1 ∧ j = locateMatch (bracket.rounds.getD ri []) matchId / 2)) :
    (matchAt (updateBracketWithWinner bracket matchId winnerId) i j).player1 =
      (matchAt bracket i j).player1 ∧
    (matchAt (updateBracketWithWinner bracket matchId winnerId) i j).player2 =
      (matchAt bracket i j).player2 := by
  match hfind : locateRound bracket matchId with
  | none =>
    rw [update_of_locateRound_none bracket matchId winnerId hfind]
    exact ⟨rfl, rfl⟩
  | some ri =>
    obtain ⟨hri, hany⟩ := locateRound_some bracket matchId ri hfind
    have hnp := h ri hfind
    by_cases hbye : hasBye (matchAt bracket ri
        (locateMatch (bracket.rounds.getD ri []) matchId)) = true
    · rw [update_of_bye bracket matchId winnerId ri hfind hbye]
      exact ⟨rfl, rfl⟩
    · rw [Bool.not_eq_true] at hbye
      by_cases hlast : ri < bracket.rounds.length - 1
      · rw [update_of_found_notlast bracket matchId winnerId ri hfind hbye hlast]
        dsimp only [matchAt]
        by_cases hi1 : i = ri + 1
        · subst hi1
          have hj : j ≠ locateMatch (bracket.rounds.getD ri []) matchId / 2 := by
            intro hj
            exact hnp ⟨rfl, hj⟩
          rw [getD_set_self_of_lt _ _ _ _ (by simp only [List.length_set]; omega)]
          rw [getD_set_of_ne _ _ _ _ _ (fun hh => hj hh.symm)]
          exact ⟨rfl, rfl⟩
        · rw [getD_set_of_ne _ _ _ _ _ (fun hh => hi1 hh.symm)]
          by_cases hi0 : i = ri
          · subst hi0
            rw [getD_set_self_of_lt _ _ _ _ hri]
            refine slots_after_set _ _ _ ?_ ?_ j
            · rfl
            · rfl
          · rw [getD_set_of_ne _ _ _ _ _ (Ne.symm hi0)]
            exact ⟨rfl, rfl⟩
      · rw [update_of_found_last bracket matchId winnerId ri hfind hbye hlast]
        dsimp only [matchAt]
        by_cases hi0 : i = ri
        · subst hi0
          rw [getD_set_self_of_lt _ _ _ _ hri]
          refine slots_after_set _ _ _ ?_ ?_ j
          · rfl
          · rfl
        · rw [getD_set_of_ne _ _ _ _ _ (Ne.symm hi0)]
          exact ⟨rfl, rfl⟩

/-- C10 amended: on structurally well-formed brackets (each round half the
size of the previous one, as `build` produces, which also keeps every
array write of the JavaScript original in bounds), `applyWinner`
preserves the structure — the same number of rounds and the same number
of matches per round — and every match's id, round number and annotation
fields, and carries the competitor slots of every match other than the
immediate parent of the located match over unchanged; only winner fields
and that parent's competitor slots change. -/
theorem applyWinner_structure_and_static_fields (bracket : Bracket)
    (matchId winnerId : String)
    (hwf : ∀ i, i + 1 < bracket.rounds.length →
      2 * (bracket.rounds.getD (i + 1) []).length = (bracket.rounds.getD i []).length) :
    (updateBracketWithWinner bracket matchId winnerId).rounds.length =
      bracket.rounds.length ∧
    (∀ i, ((updateBracketWithWinner bracket matchId winnerId).rounds.getD i []).length =
      (bracket.rounds.getD i []).length) ∧
    (∀ i j, sameStaticFields
      (matchAt (updateBracketWithWinner bracket matchId winnerId) i j)
      (matchAt bracket i j)) ∧
    (∀ i j,
      (∀ ri, locateRound bracket matchId = some ri →
        ¬(i = ri + 1 ∧ j = locateMatch (bracket.rounds.getD ri []) matchId / 2)) →
      (matchAt (updateBracketWithWinner bracket matchId winnerId) i j).player1 =
        (matchAt bracket i j).player1 ∧
      (matchAt (updateBracketWithWinner bracket matchId winnerId) i j).player2 =
        (matchAt bracket i j).player2) := by
  have hmain : (updateBracketWithWinner bracket matchId winnerId).rounds.length =
      bracket.rounds.length ∧
    (∀ i, ((updateBracketWithWinner bracket matchId winnerId).rounds.getD i []).length =
      (bracket.rounds.getD i []).length) ∧
    (∀ i j, sameStaticFields
      (matchAt (updateBracketWithWinner bracket matchId winnerId) i j)
      (matchAt bracket i j)) := by
    match hfind : locateRound bracket matchId with
    | none =>
      rw [update_of_locateRound_none bracket matchId winnerId hfind]
      exact ⟨rfl, fun i => rfl, fun i j => ⟨rfl, rfl, rfl⟩⟩
    | some ri =>
      by_cases hbye : hasBye (matchAt bracket ri
          (locateMatch (bracket.rounds.getD ri []) matchId)) = true
      · rw [update_of_bye bracket matchId winnerId ri hfind hbye]
        exact ⟨rfl, fun i => rfl, fun i j => ⟨rfl, rfl, rfl⟩⟩
      · rw [Bool.not_eq_true] at hbye
        have hR1 : ∀ j, sameStaticFields
            (((bracket.rounds.getD ri []).set
              (locateMatch (bracket.rounds.getD ri []) matchId)
              { matchAt bracket ri (locateMatch (bracket.rounds.getD ri []) matchId) with
                winner := resolveWinner (matchAt bracket ri
                  (locateMatch (bracket.rounds.getD ri []) matchId)) winnerId }).getD j
              default)
            ((bracket.rounds.getD ri []).getD j default) := by
          intro j
          refine sameStaticFields_after_set _ _ _ ?_ j
          exact ⟨rfl, rfl, rfl⟩
        by_cases hlast : ri < bracket.rounds.length - 1
        · rw [update_of_found_notlast bracket matchId winnerId ri hfind hbye hlast]
          refine ⟨?_, ?_, ?_⟩
          · simp [List.length_set]
          · intro i
            dsimp only
            rw [roundLength_after_round_set _ _ _
              (by rw [List.length_set,
                getD_set_of_ne _ _ _ _ _ (show ri ≠ ri + 1 by omega)]) i]
            by_cases hik : i = ri
            · subst hik
              by_cases hk : i < bracket.rounds.length
              · rw [getD_set_self_of_lt _ _ _ _ hk, List.length_set]
              · rw [List.set_eq_of_length_le (by omega)]
            · rw [getD_set_of_ne _ _ _ _ _ (Ne.symm hik)]
          · intro i j
            dsimp only [matchAt]
            have hbase : ((bracket.rounds.set ri ((bracket.rounds.getD ri []).set
                (locateMatch (bracket.rounds.getD ri []) matchId)
                { matchAt bracket ri (locateMatch (bracket.rounds.getD ri []) matchId) with
                  winner := resolveWinner (matchAt bracket ri
                    (locateMatch (bracket.rounds.getD ri []) matchId)) winnerId })).getD
                (ri + 1) []) = bracket.rounds.getD (ri + 1) [] :=
              getD_set_of_ne _ _ _ _ _ (by omega)
            have h2 : ∀ j', sameStaticFields
                (((bracket.rounds.getD (ri + 1) []).set
                  (locateMatch (bracket.rounds.getD ri []) matchId / 2)
                  (propagateToParent
                    (matchAt bracket (ri + 1)
                      (locateMatch (bracket.rounds.getD ri []) matchId / 2))
                    (locateMatch (bracket.rounds.getD ri []) matchId)
                    (resolveWinner (matchAt bracket ri
                      (locateMatch (bracket.rounds.getD ri []) matchId)) winnerId))).getD
                  j' default)
                (((bracket.rounds.set ri ((bracket.rounds.getD ri []).set
                  (locateMatch (bracket.rounds.getD ri []) matchId)
                  { matchAt bracket ri (locateMatch (bracket.rounds.getD ri []) matchId) with
                    winner := resolveWinner (matchAt bracket ri
                      (locateMatch (bracket.rounds.getD ri []) matchId)) winnerId })).getD
                  (ri + 1) []).getD j' default) := by
              intro j'
              rw [hbase]
              refine sameStaticFields_after_set _ _ _ ?_ j'
              exact ⟨rfl, rfl, rfl⟩
            have houter := sameStaticFields_after_round_set
              (bracket.rounds.set ri ((bracket.rounds.getD ri []).set
                (locateMatch (bracket.rounds.getD ri []) matchId)
                { matchAt bracket ri (locateMatch (bracket.rounds.getD ri []) matchId) with
                  winner := resolveWinner (matchAt bracket ri
                    (locateMatch (bracket.rounds.getD ri []) matchId)) winnerId }))
              (ri + 1)
              ((bracket.rounds.getD (ri + 1) []).set
                (locateMatch (bracket.rounds.getD ri []) matchId / 2)
                (propagateToParent
                  (matchAt bracket (ri + 1)
                    (locateMatch (bracket.rounds.getD ri []) matchId / 2))
                  (locateMatch (bracket.rounds.getD ri []) matchId)
                  (resolveWinner (matchAt bracket ri
                    (locateMatch (bracket.rounds.getD ri []) matchId)) winnerId)))
              h2 i j
            have hinner := sameStaticFields_after_round_set bracket.rounds ri
              ((bracket.rounds.getD ri []).set
                (locateMatch (bracket.rounds.getD ri []) matchId)
                { matchAt bracket ri (locateMatch (bracket.rounds.getD ri []) matchId) with
                  winner := resolveWinner (matchAt bracket ri
                    (locateMatch (bracket.rounds.getD ri []) matchId)) winnerId })
              hR1 i j
            exact ⟨houter.1.trans hinner.1, houter.2.1.trans hinner.2.1,
              houter.2.2.trans hinner.2.2⟩
        · rw [update_of_found_last bracket matchId winnerId ri hfind hbye hlast]
          refine ⟨?_, ?_, ?_⟩
          · simp [List.length_set]
          · intro i
            dsimp only
            exact roundLength_after_round_set _ _ _ (by rw [List.length_set]) i
          · intro i j
            dsimp only [matchAt]
            exact sameStaticFields_after_round_set _ ri _ hR1 i j
  exact ⟨hmain.1, hmain.2.1, hmain.2.2,
    fun i j h => applyWinner_slots_frame bracket matchId winnerId i j h⟩

/-- Witness for C10 (amended) on a four-competitor bracket. -/
theorem applyWinner_structure_and_static_fields_witness :
    ((updateBracketWithWinner (generateBracket
        [comp "a", comp "b", comp "c", comp "d"]) "r1-m1" "a").rounds.length =
      (generateBracket [comp "a", comp "b", comp "c", comp "d"]).rounds.length ∧
    (∀ i, ((updateBracketWithWinner (generateBracket
        [comp "a", comp "b", comp "c", comp "d"]) "r1-m1" "a").rounds.getD i []).length =
      ((generateBracket [comp "a", comp "b", comp "c", comp "d"]).rounds.getD i []).length) ∧
    (∀ i j, sameStaticFields
      (matchAt (updateBracketWithWinner (generateBracket
        [comp "a", comp "b", comp "c", comp "d"]) "r1-m1" "a") i j)
      (matchAt (generateBracket [comp "a", comp "b", comp "c", comp "d"]) i j)) ∧
    (∀ i j,
      (∀ ri, locateRound (generateBracket
          [comp "a", comp "b", comp "c", comp "d"]) "r1-m1" = some ri →
        ¬(i = ri + 1 ∧ j = locateMatch ((generateBracket
          [comp "a", comp "b", comp "c", comp "d"]).rounds.getD ri []) "r1-m1" / 2)) →
      (matchAt (updateBracketWithWinner (generateBracket
          [comp "a", comp "b", comp "c", comp "d"]) "r1-m1" "a") i j).player1 =
        (matchAt (generateBracket [comp "a", comp "b", comp "c", comp "d"]) i j).player1 ∧
      (matchAt (updateBracketWithWinner (generateBracket
          [comp "a", comp "b", comp "c", comp "d"]) "r1-m1" "a") i j).player2 =
        (matchAt (generateBracket [comp "a", comp "b", comp "c", comp "d"]) i j).player2)) ∧
    (updateBracketWithWinner (generateBracket
        [comp "a", comp "b", comp "c", comp "d"]) "r1-m1" "a").rounds.length = 2 :=
  ⟨applyWinner_structure_and_static_fields
      (generateBracket [comp "a", comp "b", comp "c", comp "d"]) "r1-m1" "a"
      (by
        intro i hi
        have hlen : (generateBracket
            [comp "a", comp "b", comp "c", comp "d"]).rounds.length = 2 := by decide
        rw [hlen] at hi
        have hi0 : i = 0 := by omega
        subst hi0
        decide),
    by decide⟩

end BoltBracket
